import Mathlib

/-!
# Verification of the RBAC authorization engine and JWT token lifecycle

Shallow embedding of the RBAC / authentication core of the `flaskwithpsql`
repository:

* `app/models/role.py` — `Role` with single-parent inheritance chain,
  `Role.get_all_permissions` (walks `parent_role` until null);
* `app/models/user.py` — `User.get_all_permissions`, `User.has_permission`
  (wildcards `*:*` and `resource:*`), `User.has_role`, `User.has_any_role`,
  `User.has_all_roles`;
* `app/rbac/services.py` — `RBACService` role/permission mutations and
  registry seeding;
* `app/auth/__init__.py` and `app/services/auth_service.py` — token
  blacklist, revocation, refresh.

Python sets are modelled as `Finset String`; ORM relationship collections
as lists; raised service exceptions as `Except` errors.
-/

namespace FlaskRBAC

/-- A role (`app/models/role.py`).  `parent_role` is the self-referential
single-parent inheritance link; the ORM resolves it to the parent `Role`
object (or `None`), so we embed the resolved chain directly.  The embedding
being an inductive type corresponds to the acyclic configurations of the
database. -/
inductive Role where
  | mk (name : String) (display_name : String) (is_system_role : Bool)
       (is_deleted : Bool) (permissions : List String)
       (parent_role : Option Role)

/-- Structural equality test for roles (the ORM compares collection
elements by object identity; with unique names and the session identity
map this coincides with structural equality of the resolved records). -/
def Role.beq : Role → Role → Bool
  | .mk n₁ d₁ s₁ e₁ p₁ q₁, .mk n₂ d₂ s₂ e₂ p₂ q₂ =>
    n₁ = n₂ && d₁ = d₂ && s₁ = s₂ && e₁ = e₂ && p₁ = p₂ &&
      match q₁, q₂ with
      | none, none => true
      | some a, some b => Role.beq a b
      | _, _ => false

instance : BEq Role := ⟨Role.beq⟩

/-- Embeds `role.name` column. -/
def Role.name : Role → String
  | .mk n _ _ _ _ _ => n

/-- Embeds `role.display_name` column. -/
def Role.display_name : Role → String
  | .mk _ d _ _ _ _ => d

/-- Embeds `role.is_system_role` column. -/
def Role.is_system_role : Role → Bool
  | .mk _ _ s _ _ _ => s

/-- Embeds `role.is_deleted` column (inherited from `BaseModel`). -/
def Role.is_deleted : Role → Bool
  | .mk _ _ _ d _ _ => d

/-- Names of the permissions attached directly to the role
(`role.permissions` relationship). -/
def Role.permissions : Role → List String
  | .mk _ _ _ _ ps _ => ps

/-- Embeds `role.parent_role` relationship. -/
def Role.parent_role : Role → Option Role
  | .mk _ _ _ _ _ p => p

/-- The parent chain of a role: the `while parent:` walk in
`Role.get_all_permissions` visits exactly these roles, in this order. -/
def Role.ancestors : Role → List Role
  | .mk _ _ _ _ _ none => []
  | .mk _ _ _ _ _ (some p) => p :: p.ancestors

/-- Embeds `Role.get_all_permissions` (`role.py` lines 201-232): the role's own
permission names plus, walking `parent_role` until null, every ancestor's
own permission names, collected into a Python `set`. -/
def Role.get_all_permissions (r : Role) : Finset String :=
  (r.permissions ++ (r.ancestors.map Role.permissions).flatten).toFinset

/-- A user (`app/models/user.py`).  `roles` is the `user_roles`
relationship, `direct_permissions` the names of the permissions granted
directly to the user (the `user_permissions` relationship; permission
names are unique, so rows are identified by name). -/
structure User where
  id : Nat
  is_active : Bool
  roles : List Role
  direct_permissions : List String

/-- Embeds `User.get_all_permissions` (`user.py` lines 143-169): union of every
assigned role's `get_all_permissions()` with the user's direct permission
names. -/
def User.get_all_permissions (u : User) : Finset String :=
  (u.roles.foldl (fun s r => s ∪ r.get_all_permissions) ∅) ∪
    u.direct_permissions.toFinset

/-- Python `":" in s`: the string contains a colon codepoint. -/
def containsColon (s : String) : Bool :=
  s.toList.contains ':'

/-- The first component of Python `s.split(":", 1)`: the part of the
string before the first colon. -/
def resourcePart (s : String) : String :=
  String.mk (s.toList.takeWhile (fun c => c ≠ ':'))

/-- The second component of Python `s.split(":", 1)`: everything after
the first colon. -/
def actionPart (s : String) : String :=
  String.mk ((s.toList.dropWhile (fun c => c ≠ ':')).drop 1)

/-- Embeds `User.has_permission` (`user.py` lines 171-205): exact match, then the
super-admin wildcard `*:*`, then — when the name contains `:` — the
resource-level wildcard `resource:*` where `resource` is the part before
the first `:` (Python `permission_name.split(":", 1)`). -/
def User.has_permission (u : User) (permission_name : String) : Bool :=
  let all_perms := u.get_all_permissions
  if permission_name ∈ all_perms then true
  else if "*:*" ∈ all_perms then true
  else if containsColon permission_name then
    decide ((resourcePart permission_name ++ ":*") ∈ all_perms)
  else false

/-- Embeds `User.has_role` (`user.py` lines 207-217): exact name match over the
user's directly assigned roles. -/
def User.has_role (u : User) (role_name : String) : Bool :=
  u.roles.any (fun r => r.name = role_name)

/-- Embeds `User.has_any_role` (`user.py` lines 219-230): nonempty intersection
of the user's role-name set with the given names. -/
def User.has_any_role (u : User) (role_names : List String) : Bool :=
  decide (((u.roles.map Role.name).toFinset ∩ role_names.toFinset) ≠ ∅)

/-- Embeds `User.has_all_roles` (`user.py` lines 232-243): every given name is in
the user's role-name set. -/
def User.has_all_roles (u : User) (role_names : List String) : Bool :=
  role_names.all (fun n => n ∈ (u.roles.map Role.name).toFinset)

/-- Embeds `Role.soft_delete` (from `BaseModel`): set the `is_deleted` flag. -/
def Role.soft_delete : Role → Role
  | .mk n d s _ p q => .mk n d s true p q

/-- A permission row (`app/models/permission.py`): `name` is the unique
`resource:action` string. -/
structure Permission where
  name : String
  resource : String
  action : String
  description : String
  is_deleted : Bool
deriving DecidableEq

/-- The typed failures raised by `RBACService`
(`app/rbac/exceptions.py`). -/
inductive RBACError where
  | roleNotFound (role_name : String)
  | roleAssignment (message : String)
  | permissionNotFound (permission_name : String)
  | directPermission (message : String)
  | systemRole (role_name : String)
deriving DecidableEq

/-- Embeds `RBACService.get_role_by_name`: first role in the store matching
`filter_by(name=role_name, is_deleted=False)`. -/
def get_role_by_name (store : List Role) (role_name : String) : Option Role :=
  store.find? (fun r => r.name = role_name && r.is_deleted = false)

/-- Embeds `RBACService.get_role_or_404` called with a role name.  An empty name
is falsy in Python, so the lookup is skipped and the not-found error is
raised directly. -/
def get_role_or_404 (store : List Role) (role_name : String) : Except RBACError Role :=
  if role_name = "" then .error (.roleNotFound role_name)
  else
    match get_role_by_name store role_name with
    | none => .error (.roleNotFound role_name)
    | some r => .ok r

/-- Embeds `RBACService.get_permission_by_name`: first permission matching
`filter_by(name=permission_name, is_deleted=False)`. -/
def get_permission_by_name (store : List Permission) (permission_name : String) :
    Option Permission :=
  store.find? (fun p => p.name = permission_name && p.is_deleted = false)

/-- Embeds `RBACService.get_permission_or_404`. -/
def get_permission_or_404 (store : List Permission) (permission_name : String) :
    Except RBACError Permission :=
  match get_permission_by_name store permission_name with
  | none => .error (.permissionNotFound permission_name)
  | some p => .ok p

/-- Embeds `RBACService.assign_role_to_user` (`services.py` lines 232-268): look
the role up (404 on miss), reject when the user already has it, otherwise
append it to `user.roles` and return the updated user with the role. -/
def assign_role_to_user (store : List Role) (user : User) (role_name : String) :
    Except RBACError (User × Role) :=
  match get_role_or_404 store role_name with
  | .error e => .error e
  | .ok role =>
    if user.has_role role_name then
      .error (.roleAssignment ("User already has role " ++ role_name))
    else
      .ok ({ user with roles := user.roles ++ [role] }, role)

/-- Embeds `RBACService.revoke_role_from_user` (`services.py` lines 270-308):
look the role up (404 on miss), reject when the user does not have it,
otherwise remove it from `user.roles` (Python `list.remove`: first
occurrence). -/
def revoke_role_from_user (store : List Role) (user : User) (role_name : String) :
    Except RBACError (User × Role) :=
  match get_role_or_404 store role_name with
  | .error e => .error e
  | .ok role =>
    if user.has_role role_name then
      .ok ({ user with roles := user.roles.erase role }, role)
    else
      .error (.roleAssignment ("User does not have role " ++ role_name))

/-- Embeds `RBACService.delete_role` (`services.py` lines 375-408): look the role
up, reject system roles unconditionally, otherwise soft-delete it in the
store.  `deleted_by` is only logged for audit and never influences the
outcome. -/
def delete_role (store : List Role) (role_name : String) (deleted_by : Option User) :
    Except RBACError (List Role × Role) :=
  match get_role_or_404 store role_name with
  | .error e => .error e
  | .ok role =>
    if role.is_system_role then
      .error (.systemRole role_name)
    else
      .ok (store.map (fun r => if r == role then role.soft_delete else r),
           role.soft_delete)

/-- Embeds `RBACService.grant_direct_permission` (`services.py` lines 448-493):
look the permission up (404 on miss), reject when the user already holds
it directly, otherwise append it to `user.direct_permissions`.
Permission names are unique, so membership of the fetched row in the
user's direct grants is membership of its name. -/
def grant_direct_permission (store : List Permission) (user : User)
    (permission_name : String) : Except RBACError (User × Permission) :=
  match get_permission_or_404 store permission_name with
  | .error e => .error e
  | .ok perm =>
    if perm.name ∈ user.direct_permissions then
      .error (.directPermission ("User already has direct permission " ++ permission_name))
    else
      .ok ({ user with direct_permissions := user.direct_permissions ++ [perm.name] }, perm)

/-- Embeds `RBACService.revoke_direct_permission` (`services.py` lines 495-535):
look the permission up (404 on miss), reject when the user does not hold
it directly, otherwise remove it (Python `list.remove`: first
occurrence). -/
def revoke_direct_permission (store : List Permission) (user : User)
    (permission_name : String) : Except RBACError (User × Permission) :=
  match get_permission_or_404 store permission_name with
  | .error e => .error e
  | .ok perm =>
    if perm.name ∈ user.direct_permissions then
      .ok ({ user with direct_permissions := user.direct_permissions.erase perm.name }, perm)
    else
      .error (.directPermission ("User does not have direct permission " ++ permission_name))

/-- Embeds `RBACService.user_has_any_permission` (`services.py` lines 105-120):
`None` user is denied; otherwise a short-circuiting `any` over
`User.has_permission`. -/
def user_has_any_permission (user : Option User) (permissions : List String) : Bool :=
  match user with
  | none => false
  | some u => permissions.any (fun p => u.has_permission p)

/-- Embeds `RBACService.user_has_all_permissions` (`services.py` lines 122-137):
`None` user is denied; otherwise a short-circuiting `all` over
`User.has_permission`. -/
def user_has_all_permissions (user : Option User) (permissions : List String) : Bool :=
  match user with
  | none => false
  | some u => permissions.all (fun p => u.has_permission p)

/-- Step 4 of the `permission_required` decorator
(`app/rbac/decorators.py` lines 142-146): all-mode vs any-mode dispatch of
the access decision. -/
def permission_required_decision (user : Option User) (permissions : List String)
    (require_all : Bool) : Bool :=
  if require_all then user_has_all_permissions user permissions
  else user_has_any_permission user permissions

/-- Embeds `PermissionRegistry.PERMISSIONS` (`app/rbac/permissions.py` lines
115-148): every registered permission name with its description, in
dictionary order. -/
def PermissionRegistry.PERMISSIONS : List (String × String) :=
  [("users:read", "View user profiles and information"),
   ("users:create", "Create new user accounts"),
   ("users:update", "Update user profile information"),
   ("users:delete", "Delete user accounts (soft delete)"),
   ("users:list", "List all users in the system"),
   ("roles:read", "View role details and their permissions"),
   ("roles:create", "Create new roles"),
   ("roles:update", "Modify role settings and permissions"),
   ("roles:delete", "Delete roles (non-system roles only)"),
   ("roles:list", "List all roles in the system"),
   ("roles:assign", "Assign roles to users"),
   ("roles:revoke", "Revoke roles from users"),
   ("permissions:read", "View permission details"),
   ("permissions:list", "List all permissions in the system"),
   ("permissions:assign", "Assign direct permissions to users"),
   ("permissions:revoke", "Revoke direct permissions from users"),
   ("*:*", "Full system access (super admin)"),
   ("users:*", "All permissions on users"),
   ("roles:*", "All permissions on roles"),
   ("permissions:*", "All permissions on permissions")]

/-- Embeds `PermissionRegistry.DEFAULT_ROLES` (`permissions.py` lines 156-199):
role name with (display name, description, permission names, is_system). -/
def PermissionRegistry.DEFAULT_ROLES :
    List (String × String × String × List String × Bool) :=
  [("super_admin", "Super Administrator", "Full system access with all permissions",
    ["*:*"], true),
   ("admin", "Administrator", "Administrative access for managing users and roles",
    ["users:read", "users:create", "users:update", "users:delete", "users:list",
     "roles:read", "roles:list", "roles:assign", "roles:revoke",
     "permissions:read", "permissions:list"], true),
   ("moderator", "Moderator", "Content moderation with limited user management",
    ["users:read", "users:update", "users:list"], true),
   ("user", "Regular User", "Basic user access with read-only permissions",
    ["users:read"], true)]

/-- The `resource`/`action` decomposition in `seed_permissions`: Python
`perm_name.split(":", 1)` when the name contains a colon, otherwise
`(perm_name, "*")`. -/
def parsePermissionName (n : String) : String × String :=
  if containsColon n then (resourcePart n, actionPart n)
  else (n, "*")

/-- Body of the `for perm_name, description in PERMISSIONS.items()` loop
of `RBACService.seed_permissions` (`services.py` lines 621-661): names
already present in the store are skipped, others are inserted (the
session's autoflush makes rows added earlier in the same run visible to
the existence query).  Returns the final store with the
`(created, skipped)` counters. -/
def seedPermissionsLoop (entries : List (String × String)) (store : List Permission) :
    List Permission × Nat × Nat :=
  match entries with
  | [] => (store, 0, 0)
  | (n, desc) :: rest =>
    if store.any (fun p => p.name = n) then
      let r := seedPermissionsLoop rest store
      (r.1, r.2.1, r.2.2 + 1)
    else
      let ra := parsePermissionName n
      let perm : Permission := ⟨n, ra.1, ra.2, desc, false⟩
      let r := seedPermissionsLoop rest (store ++ [perm])
      (r.1, r.2.1 + 1, r.2.2)

/-- Embeds `RBACService.seed_permissions`. -/
def seed_permissions (store : List Permission) : List Permission × Nat × Nat :=
  seedPermissionsLoop PermissionRegistry.PERMISSIONS store

/-- Body of the `for role_name, (...) in DEFAULT_ROLES.items()` loop of
`RBACService.seed_roles` (`services.py` lines 663-709): role names already
present are skipped; otherwise the role is created with the registry
permissions that exist in the permission store (missing ones are silently
dropped) and no parent. -/
def seedRolesLoop (entries : List (String × String × String × List String × Bool))
    (pstore : List Permission) (store : List Role) : List Role × Nat × Nat :=
  match entries with
  | [] => (store, 0, 0)
  | (role_name, display_name, _descr, permission_names, is_system) :: rest =>
    if store.any (fun r => r.name = role_name) then
      let r := seedRolesLoop rest pstore store
      (r.1, r.2.1, r.2.2 + 1)
    else
      let perms := permission_names.filter (fun n => pstore.any (fun p => p.name = n))
      let role : Role := .mk role_name display_name is_system false perms none
      let r := seedRolesLoop rest pstore (store ++ [role])
      (r.1, r.2.1 + 1, r.2.2)

/-- Embeds `RBACService.seed_roles`. -/
def seed_roles (pstore : List Permission) (store : List Role) :
    List Role × Nat × Nat :=
  seedRolesLoop PermissionRegistry.DEFAULT_ROLES pstore store

/-- The per-entity `created`/`skipped` counts returned by
`RBACService.seed_all` (`services.py` lines 711-725), together with the
stores it leaves behind. -/
structure SeedResult where
  perm_store : List Permission
  role_store : List Role
  perm_created : Nat
  perm_skipped : Nat
  role_created : Nat
  role_skipped : Nat

/-- Embeds `RBACService.seed_all`: seed permissions, then roles (role seeding
looks its permissions up in the freshly seeded permission store). -/
def seed_all (pstore : List Permission) (rstore : List Role) : SeedResult :=
  let pr := seed_permissions pstore
  let rr := seed_roles pr.1 rstore
  ⟨pr.1, rr.1, pr.2.1, pr.2.2, rr.2.1, rr.2.2⟩

/-- The failure raised by `AuthService.refresh_tokens` on a missing
user (`app/services/auth_service.py`). -/
inductive AuthError where
  | userNotAuthenticated
deriving DecidableEq

/-- The process-local mutable authentication state of
`app/auth/__init__.py`: the module-level `_token_blacklist` set of revoked
`jti` strings, plus a counter modelling the supply of fresh `jti` values
(the library draws them from `uuid4`, so each minted token gets a `jti`
never produced before). -/
structure AuthState where
  token_blacklist : Finset String
  jti_counter : Nat

/-- Embeds `revoke_token` (`auth/__init__.py` lines 200-208): add the `jti` to
the blacklist.  This is the only operation that ever writes the set. -/
def revoke_token (jti : String) (st : AuthState) : AuthState :=
  { st with token_blacklist := insert jti st.token_blacklist }

/-- Embeds `check_if_token_revoked` (`auth/__init__.py` lines 111-120): the
`token_in_blocklist_loader` callback, true iff the payload's `jti` is in
the blacklist. -/
def check_if_token_revoked (st : AuthState) (jti : String) : Bool :=
  jti ∈ st.token_blacklist

/-- Embeds `AuthService.logout` (`auth_service.py` lines 131-164): revoke the
token's `jti`. -/
def logout (jti : String) (st : AuthState) : AuthState :=
  revoke_token jti st

/-- Token type tag (access vs refresh claim set). -/
inductive TokenType where
  | access
  | refresh
deriving DecidableEq

/-- A decoded token claim set: `jti`, subject (user id), expiry instant,
type tag, and whether its signature verifies against the configured
secret. -/
structure Token where
  jti : String
  sub : Nat
  exp : Nat
  token_type : TokenType
  sig_ok : Bool
deriving DecidableEq

/-- Outcome of validating a presented token. -/
inductive ValidateResult where
  | valid (identity : Nat)
  | invalidToken
  | expiredToken
  | revokedToken
deriving DecidableEq

/-- Modelled from the spec: token validation is performed by the
flask-jwt-extended library, whose code is not part of this repository;
per spec §4.2 `validate(token)` "verifies signature, expiry, and checks
`jti` against the revocation set", with distinct failures for invalid,
expired and revoked tokens.  The repository contributes exactly the
revocation check, its `check_if_token_revoked` blocklist callback. -/
def validateToken (now : Nat) (st : AuthState) (t : Token) : ValidateResult :=
  if t.sig_ok = false then .invalidToken
  else if t.exp ≤ now then .expiredToken
  else if check_if_token_revoked st t.jti then .revokedToken
  else .valid t.sub

/-- Default `JWT_ACCESS_TOKEN_EXPIRES` (15 minutes), in seconds. -/
def JWT_ACCESS_TOKEN_EXPIRES : Nat := 15 * 60

/-- Default `JWT_REFRESH_TOKEN_EXPIRES` (30 days), in seconds. -/
def JWT_REFRESH_TOKEN_EXPIRES : Nat := 30 * 24 * 60 * 60

/-- The `n`-th fresh token identifier of the process (models the
library's `uuid4` draws, which never repeat). -/
def freshJti (n : Nat) : String :=
  "jti-" ++ toString n

/-- Embeds `create_tokens` (`auth/__init__.py` lines 162-197): mint a signed
access token and refresh token for the user, each with a fresh `jti`; the
blacklist is untouched. -/
def create_tokens (u : User) (now : Nat) (st : AuthState) :
    (Token × Token) × AuthState :=
  let access : Token :=
    ⟨freshJti st.jti_counter, u.id, now + JWT_ACCESS_TOKEN_EXPIRES, .access, true⟩
  let refreshTok : Token :=
    ⟨freshJti (st.jti_counter + 1), u.id, now + JWT_REFRESH_TOKEN_EXPIRES, .refresh, true⟩
  ((access, refreshTok), { st with jti_counter := st.jti_counter + 2 })

/-- Embeds `AuthService.refresh_tokens` (`auth_service.py` lines 166-201): fail
when the user is `None`, otherwise mint a fresh pair with
`create_tokens`.  Nothing is ever revoked here. -/
def refresh_tokens (user : Option User) (now : Nat) (st : AuthState) :
    Except AuthError ((Token × Token) × AuthState) :=
  match user with
  | none => .error .userNotAuthenticated
  | some u => .ok (create_tokens u now st)

/-- The operations through which this process ever touches `AuthState`:
logout (revocation), login (token minting via `AuthService.login` →
`create_tokens`), and token refresh. -/
inductive AuthOp where
  | logoutOp (jti : String)
  | loginOp (u : User) (now : Nat)
  | refreshOp (user : Option User) (now : Nat)

/-- Effect of one operation on the authentication state. -/
def AuthOp.apply : AuthOp → AuthState → AuthState
  | .logoutOp j, st => logout j st
  | .loginOp u now, st => (create_tokens u now st).2
  | .refreshOp user now, st =>
    match refresh_tokens user now st with
    | .ok (_, st') => st'
    | .error _ => st

/-- Run a sequence of authentication operations. -/
def applyAuthOps (ops : List AuthOp) (st : AuthState) : AuthState :=
  ops.foldl (fun s o => o.apply s) st

/-! ## Helper lemmas -/

/-- The parent walk after a non-null `parent_role` step. -/
theorem Role.ancestors_of_parent_some {r p : Role} (h : r.parent_role = some p) :
    r.ancestors = p :: p.ancestors := by
  cases r with
  | mk n d s e ps q =>
    cases q with
    | none => simp [Role.parent_role] at h
    | some p' =>
      simp only [Role.parent_role] at h
      cases h
      rfl

/-- Membership in a role's effective permission set: its own permissions
or those of one of its ancestors. -/
theorem Role.mem_role_all_permissions {r : Role} {p : String} :
    p ∈ r.get_all_permissions ↔
      p ∈ r.permissions ∨ ∃ a ∈ r.ancestors, p ∈ a.permissions := by
  unfold Role.get_all_permissions
  simp only [List.mem_toFinset, List.mem_append, List.mem_flatten, List.mem_map]
  constructor
  · rintro (h | ⟨l, ⟨a, ha, rfl⟩, hp⟩)
    · exact Or.inl h
    · exact Or.inr ⟨a, ha, hp⟩
  · rintro (h | ⟨a, ha, hp⟩)
    · exact Or.inl h
    · exact Or.inr ⟨a.permissions, ⟨a, ha, rfl⟩, hp⟩

/-- Membership in the union fold over a user's roles. -/
theorem mem_roles_foldl_union {l : List Role} {init : Finset String} {p : String} :
    p ∈ l.foldl (fun s r => s ∪ r.get_all_permissions) init ↔
      p ∈ init ∨ ∃ r ∈ l, p ∈ r.get_all_permissions := by
  induction l generalizing init with
  | nil => simp
  | cons r rs ih =>
    simp only [List.foldl_cons, ih, Finset.mem_union, List.mem_cons]
    constructor
    · rintro ((h | h) | ⟨r', hr', hp⟩)
      · exact Or.inl h
      · exact Or.inr ⟨r, Or.inl rfl, h⟩
      · exact Or.inr ⟨r', Or.inr hr', hp⟩
    · rintro (h | ⟨r', (rfl | hr'), hp⟩)
      · exact Or.inl (Or.inl h)
      · exact Or.inl (Or.inr hp)
      · exact Or.inr ⟨r', hr', hp⟩

/-- Membership in a user's effective permission set. -/
theorem User.mem_user_all_permissions {u : User} {p : String} :
    p ∈ u.get_all_permissions ↔
      (∃ r ∈ u.roles, p ∈ r.get_all_permissions) ∨ p ∈ u.direct_permissions := by
  unfold User.get_all_permissions
  simp only [Finset.mem_union, mem_roles_foldl_union, Finset.not_mem_empty,
    false_or, List.mem_toFinset]

/-! ## Claims -/

/-- C1: `hasPermission(U, P)` is true iff `P` is literally in
`effectivePermissions(U)`, or `*:*` is there, or `P` contains `:` and
`{resource}:*` (with `resource` the part of `P` before the first `:`) is
there; no other wildcard form matches, so a user holding only `users:*`
has `users:delete` but not `roles:delete`. -/
theorem has_permission_characterization :
    (∀ (u : User) (p : String),
      u.has_permission p = true ↔
        (p ∈ u.get_all_permissions ∨ "*:*" ∈ u.get_all_permissions ∨
          (containsColon p = true ∧
            (resourcePart p ++ ":*") ∈ u.get_all_permissions))) ∧
    ((User.mk 1 true [] ["users:*"]).has_permission "users:delete" = true ∧
     (User.mk 1 true [] ["users:*"]).has_permission "roles:delete" = false) := by
  refine ⟨fun u p => ?_, by decide, by decide⟩
  by_cases h1 : p ∈ u.get_all_permissions
  · simp [User.has_permission, h1]
  · by_cases h2 : ("*:*" : String) ∈ u.get_all_permissions
    · simp [User.has_permission, h1, h2]
    · by_cases h3 : containsColon p = true
      · by_cases h4 : (resourcePart p ++ ":*") ∈ u.get_all_permissions
        · simp [User.has_permission, h1, h2, h3, h4]
        · simp [User.has_permission, h1, h2, h3, h4]
      · simp only [Bool.not_eq_true] at h3
        simp [User.has_permission, h1, h2, h3]

/-- C2: `effectivePermissions(U)` is the union of the permissions of each
assigned role together with all of its parent-chain ancestors, and the
user's direct grants; hence inheritance is transitive: with A's parent B
and B's parent C, a user holding only role A has every permission directly
attached to A, B, or C. -/
theorem effective_permissions_union_and_transitivity :
    (∀ (u : User) (p : String),
      p ∈ u.get_all_permissions ↔
        ((∃ r ∈ u.roles, p ∈ r.permissions ∨ ∃ a ∈ r.ancestors, p ∈ a.permissions) ∨
          p ∈ u.direct_permissions)) ∧
    (∀ (a b c : Role) (u : User) (p : String),
      a.parent_role = some b → b.parent_role = some c → u.roles = [a] →
      (p ∈ a.permissions ∨ p ∈ b.permissions ∨ p ∈ c.permissions) →
      p ∈ u.get_all_permissions) := by
  constructor
  · intro u p
    rw [User.mem_user_all_permissions]
    constructor
    · rintro (⟨r, hr, hp⟩ | h)
      · exact Or.inl ⟨r, hr, Role.mem_role_all_permissions.mp hp⟩
      · exact Or.inr h
    · rintro (⟨r, hr, hp⟩ | h)
      · exact Or.inl ⟨r, hr, Role.mem_role_all_permissions.mpr hp⟩
      · exact Or.inr h
  · intro a b c u p hab hbc hu hp
    rw [User.mem_user_all_permissions]
    refine Or.inl ⟨a, by simp [hu], ?_⟩
    rw [Role.mem_role_all_permissions, Role.ancestors_of_parent_some hab,
      Role.ancestors_of_parent_some hbc]
    rcases hp with h | h | h
    · exact Or.inl h
    · exact Or.inr ⟨b, by simp, h⟩
    · exact Or.inr ⟨c, by simp, h⟩

/-- Witness for C2: a concrete three-level chain C ← B ← A and a user
holding only A has C's permission `docs:read`. -/
theorem effective_permissions_union_and_transitivity_witness :
    "docs:read" ∈ (User.mk 7 true
      [Role.mk "editor" "Editor" false false ["docs:update"]
        (some (Role.mk "writer" "Writer" false false ["docs:write"]
          (some (Role.mk "viewer" "Viewer" false false ["docs:read"] none))))]
      []).get_all_permissions :=
  effective_permissions_union_and_transitivity.2
    (Role.mk "editor" "Editor" false false ["docs:update"]
      (some (Role.mk "writer" "Writer" false false ["docs:write"]
        (some (Role.mk "viewer" "Viewer" false false ["docs:read"] none)))))
    (Role.mk "writer" "Writer" false false ["docs:write"]
      (some (Role.mk "viewer" "Viewer" false false ["docs:read"] none)))
    (Role.mk "viewer" "Viewer" false false ["docs:read"] none)
    _ "docs:read" rfl rfl rfl (Or.inr (Or.inr (by decide)))

/-- C6: `hasRole` (and `hasAnyRole`/`hasAllRoles`) match, by exact string
equality, only the names of the user's directly assigned roles; names
reachable only through a parent chain never satisfy a role-name check. -/
theorem role_checks_direct_assignments_only :
    (∀ (u : User) (n : String),
      u.has_role n = true ↔ ∃ r ∈ u.roles, r.name = n) ∧
    (∀ (u : User) (ns : List String),
      u.has_any_role ns = true ↔ ∃ n ∈ ns, ∃ r ∈ u.roles, r.name = n) ∧
    (∀ (u : User) (ns : List String),
      u.has_all_roles ns = true ↔ ∀ n ∈ ns, ∃ r ∈ u.roles, r.name = n) ∧
    (∀ (u : User) (n : String),
      (∀ r ∈ u.roles, r.name ≠ n) → u.has_role n = false) := by
  have hrole : ∀ (u : User) (n : String),
      u.has_role n = true ↔ ∃ r ∈ u.roles, r.name = n := by
    intro u n
    simp [User.has_role, List.any_eq_true]
  refine ⟨hrole, ?_, ?_, ?_⟩
  · intro u ns
    simp only [User.has_any_role, decide_eq_true_eq, ← Finset.nonempty_iff_ne_empty,
      Finset.Nonempty, Finset.mem_inter, List.mem_toFinset, List.mem_map]
    constructor
    · rintro ⟨x, ⟨r, hr, rfl⟩, hx⟩
      exact ⟨r.name, hx, r, hr, rfl⟩
    · rintro ⟨n', hn', r, hr, rfl⟩
      exact ⟨r.name, ⟨r, hr, rfl⟩, hn'⟩
  · intro u ns
    simp only [User.has_all_roles, List.all_eq_true, decide_eq_true_eq,
      List.mem_toFinset, List.mem_map]
  · intro u n h
    rcases hh : u.has_role n with _ | _
    · rfl
    · obtain ⟨r, hr, hrn⟩ := (hrole u n).mp hh
      exact absurd hrn (h r hr)

/-- Witness for C6: a user directly holding only `moderator`, whose role
chain reaches `user`, satisfies `has_role "moderator"` but not
`has_role "user"`. -/
theorem role_checks_direct_assignments_only_witness :
    (User.mk 3 true
      [Role.mk "moderator" "Moderator" true false ["users:read"]
        (some (Role.mk "user" "Regular User" true false ["users:read"] none))]
      []).has_role "user" = false :=
  role_checks_direct_assignments_only.2.2.2 _ "user" (by
    intro r hr
    cases hr with
    | head => decide
    | tail _ h => cases h)

/-- C4: deleting a role whose `is_system` flag is set fails with the
system-role error for every caller identity, and the outcome of
`delete_role` never depends on who the caller is. -/
theorem delete_system_role_always_rejected :
    ∀ (store : List Role) (role_name : String) (who : Option User) (r : Role),
      get_role_or_404 store role_name = .ok r →
      r.is_system_role = true →
      (delete_role store role_name who = .error (.systemRole role_name) ∧
        ∀ who', delete_role store role_name who = delete_role store role_name who') := by
  intro store role_name who r hfind hsys
  refine ⟨?_, fun who' => rfl⟩
  unfold delete_role
  rw [hfind]
  simp [hsys]

/-- Witness for C4: deleting the seeded system role `super_admin` is
rejected. -/
theorem delete_system_role_always_rejected_witness :
    delete_role [Role.mk "super_admin" "Super Administrator" true false ["*:*"] none]
      "super_admin" none = .error (.systemRole "super_admin") :=
  (delete_system_role_always_rejected
    [Role.mk "super_admin" "Super Administrator" true false ["*:*"] none]
    "super_admin" none
    (Role.mk "super_admin" "Super Administrator" true false ["*:*"] none)
    rfl rfl).1

/-- C5: for each membership-edge mutation, assigning an edge that already
exists or revoking an edge that does not exist raises the corresponding
business-rule error, and the mutation succeeds exactly when the
edge-existence precondition holds. -/
theorem edge_mutation_preconditions :
    ∀ (rstore : List Role) (pstore : List Permission) (u : User)
      (role : Role) (perm : Permission) (rn pn : String),
      get_role_or_404 rstore rn = .ok role →
      get_permission_or_404 pstore pn = .ok perm →
      ((u.has_role rn = true →
          assign_role_to_user rstore u rn =
            .error (.roleAssignment ("User already has role " ++ rn))) ∧
       (u.has_role rn = false →
          revoke_role_from_user rstore u rn =
            .error (.roleAssignment ("User does not have role " ++ rn))) ∧
       (perm.name ∈ u.direct_permissions →
          grant_direct_permission pstore u pn =
            .error (.directPermission ("User already has direct permission " ++ pn))) ∧
       (perm.name ∉ u.direct_permissions →
          revoke_direct_permission pstore u pn =
            .error (.directPermission ("User does not have direct permission " ++ pn))) ∧
       ((∃ u' r', assign_role_to_user rstore u rn = .ok (u', r')) ↔
          u.has_role rn = false) ∧
       ((∃ u' r', revoke_role_from_user rstore u rn = .ok (u', r')) ↔
          u.has_role rn = true) ∧
       ((∃ u' q', grant_direct_permission pstore u pn = .ok (u', q')) ↔
          perm.name ∉ u.direct_permissions) ∧
       ((∃ u' q', revoke_direct_permission pstore u pn = .ok (u', q')) ↔
          perm.name ∈ u.direct_permissions)) := by
  intro rstore pstore u role perm rn pn hrole hperm
  refine ⟨?_, ?_, ?_, ?_, ?_, ?_, ?_, ?_⟩
  · intro h
    unfold assign_role_to_user
    rw [hrole, h]
    rfl
  · intro h
    unfold revoke_role_from_user
    rw [hrole, h]
    rfl
  · intro h
    unfold grant_direct_permission
    rw [hperm]
    simp [h]
  · intro h
    unfold revoke_direct_permission
    rw [hperm]
    simp [h]
  · unfold assign_role_to_user
    rw [hrole]
    rcases h : u.has_role rn with _ | _ <;> simp
  · unfold revoke_role_from_user
    rw [hrole]
    rcases h : u.has_role rn with _ | _ <;> simp
  · unfold grant_direct_permission
    rw [hperm]
    by_cases h : perm.name ∈ u.direct_permissions <;> simp [h]
  · unfold revoke_direct_permission
    rw [hperm]
    by_cases h : perm.name ∈ u.direct_permissions <;> simp [h]

/-- Witness for C5: assigning `moderator` to a user who already has it is
rejected as a duplicate edge. -/
theorem edge_mutation_preconditions_witness :
    assign_role_to_user [Role.mk "moderator" "Moderator" true false ["users:read"] none]
      (User.mk 4 true [Role.mk "moderator" "Moderator" true false ["users:read"] none] [])
      "moderator" =
      .error (.roleAssignment ("User already has role " ++ "moderator")) :=
  ((edge_mutation_preconditions
    [Role.mk "moderator" "Moderator" true false ["users:read"] none]
    [Permission.mk "users:read" "users" "read" "View user profiles and information" false]
    (User.mk 4 true [Role.mk "moderator" "Moderator" true false ["users:read"] none] [])
    (Role.mk "moderator" "Moderator" true false ["users:read"] none)
    (Permission.mk "users:read" "users" "read" "View user profiles and information" false)
    "moderator" "users:read" rfl rfl).1) rfl

/-- C7: granting a direct permission a user does not already hold and then
revoking it restores the user's effective permission set exactly — in
fact it restores the user record itself. -/
theorem grant_then_revoke_restores_effective_permissions :
    ∀ (pstore : List Permission) (u : User) (pn : String) (perm : Permission),
      get_permission_or_404 pstore pn = .ok perm →
      perm.name ∉ u.direct_permissions →
      ∃ u₁ u₂, grant_direct_permission pstore u pn = .ok (u₁, perm) ∧
        revoke_direct_permission pstore u₁ pn = .ok (u₂, perm) ∧
        u₂ = u ∧
        u₂.get_all_permissions = u.get_all_permissions := by
  intro pstore u pn perm hperm hnot
  refine ⟨{ u with direct_permissions := u.direct_permissions ++ [perm.name] }, u, ?_, ?_, rfl, rfl⟩
  · unfold grant_direct_permission
    rw [hperm]
    simp [hnot]
  · unfold revoke_direct_permission
    rw [hperm]
    have hmem : perm.name ∈ u.direct_permissions ++ [perm.name] := by simp
    simp only [hmem, if_pos]
    have herase : (u.direct_permissions ++ [perm.name]).erase perm.name =
        u.direct_permissions := by
      rw [List.erase_append_right _ hnot]
      simp
    simp [herase]

/-- Witness for C7: granting then revoking `users:delete` on a user with
no direct grants returns the original user. -/
theorem grant_then_revoke_restores_effective_permissions_witness :
    ∃ u₁ u₂,
      grant_direct_permission
        [Permission.mk "users:delete" "users" "delete" "Delete user accounts (soft delete)" false]
        (User.mk 9 true [] []) "users:delete" =
        .ok (u₁, Permission.mk "users:delete" "users" "delete" "Delete user accounts (soft delete)" false) ∧
      revoke_direct_permission
        [Permission.mk "users:delete" "users" "delete" "Delete user accounts (soft delete)" false]
        u₁ "users:delete" =
        .ok (u₂, Permission.mk "users:delete" "users" "delete" "Delete user accounts (soft delete)" false) ∧
      u₂ = User.mk 9 true [] [] ∧
      u₂.get_all_permissions = (User.mk 9 true [] []).get_all_permissions :=
  grant_then_revoke_restores_effective_permissions
    [Permission.mk "users:delete" "users" "delete" "Delete user accounts (soft delete)" false]
    (User.mk 9 true [] []) "users:delete"
    (Permission.mk "users:delete" "users" "delete" "Delete user accounts (soft delete)" false)
    rfl (by decide)

/-- Rows already in the permission store survive a seeding run. -/
theorem seedPermissionsLoop_mono {es : List (String × String)} {store : List Permission}
    {p : Permission} (h : p ∈ store) : p ∈ (seedPermissionsLoop es store).1 := by
  induction es generalizing store with
  | nil => simpa [seedPermissionsLoop]
  | cons e rest ih =>
    obtain ⟨n, desc⟩ := e
    simp only [seedPermissionsLoop]
    split
    · exact ih h
    · exact ih (List.mem_append_left _ h)

/-- After a permission seeding run, every entry name of the seeded list
has a row in the store. -/
theorem seedPermissionsLoop_covers {es : List (String × String)} {store : List Permission}
    {n : String} (h : ∃ d, (n, d) ∈ es) :
    ∃ p ∈ (seedPermissionsLoop es store).1, p.name = n := by
  induction es generalizing store with
  | nil => simp at h
  | cons e rest ih =>
    obtain ⟨n', desc⟩ := e
    obtain ⟨d, hd⟩ := h
    rcases List.mem_cons.mp hd with heq | htail
    · injection heq with h1 h2
      subst h1
      subst h2
      simp only [seedPermissionsLoop]
      split
      · rename_i hex
        obtain ⟨p, hp, hpn⟩ := List.any_eq_true.mp hex
        exact ⟨p, seedPermissionsLoop_mono hp, of_decide_eq_true hpn⟩
      · exact ⟨⟨n, (parsePermissionName n).1, (parsePermissionName n).2, d, false⟩,
          seedPermissionsLoop_mono (List.mem_append_right _ (List.mem_singleton.mpr rfl)), rfl⟩
    · simp only [seedPermissionsLoop]
      split
      · exact ih ⟨d, htail⟩
      · exact ih ⟨d, htail⟩

/-- A permission seeding run over a store that already has every entry
name skips everything: no new rows, `created = 0`. -/
theorem seedPermissionsLoop_skips_existing {es : List (String × String)}
    {store : List Permission} (h : ∀ e ∈ es, ∃ p ∈ store, p.name = e.1) :
    seedPermissionsLoop es store = (store, 0, es.length) := by
  induction es with
  | nil => simp [seedPermissionsLoop]
  | cons e rest ih =>
    obtain ⟨n, desc⟩ := e
    have hex : store.any (fun p => p.name = n) = true := by
      obtain ⟨p, hp, hpn⟩ := h (n, desc) (List.mem_cons_self _ _)
      exact List.any_eq_true.mpr ⟨p, hp, decide_eq_true hpn⟩
    simp only [seedPermissionsLoop, hex, if_true,
      ih (fun e he => h e (List.mem_cons_of_mem _ he)), List.length_cons]

/-- The created/skipped counters of a permission seeding run partition
the seeded list. -/
theorem seedPermissionsLoop_counts (es : List (String × String)) (store : List Permission) :
    (seedPermissionsLoop es store).2.1 + (seedPermissionsLoop es store).2.2 = es.length := by
  induction es generalizing store with
  | nil => simp [seedPermissionsLoop]
  | cons e rest ih =>
    obtain ⟨n, desc⟩ := e
    simp only [seedPermissionsLoop]
    split
    · have := ih store
      simp only [List.length_cons]
      omega
    · have := ih (store ++ [⟨n, (parsePermissionName n).1, (parsePermissionName n).2, desc, false⟩])
      simp only [List.length_cons]
      omega

/-- Rows already in the role store survive a seeding run. -/
theorem seedRolesLoop_mono {es : List (String × String × String × List String × Bool)}
    {pstore : List Permission} {store : List Role} {r : Role} (h : r ∈ store) :
    r ∈ (seedRolesLoop es pstore store).1 := by
  induction es generalizing store with
  | nil => simpa [seedRolesLoop]
  | cons e rest ih =>
    obtain ⟨n, dn, ds, ps, sys⟩ := e
    simp only [seedRolesLoop]
    split
    · exact ih h
    · exact ih (List.mem_append_left _ h)

/-- After a role seeding run, every entry name of the seeded list has a
role in the store. -/
theorem seedRolesLoop_covers {es : List (String × String × String × List String × Bool)}
    {pstore : List Permission} {store : List Role} {n : String}
    (h : ∃ t, (n, t) ∈ es) :
    ∃ r ∈ (seedRolesLoop es pstore store).1, r.name = n := by
  induction es generalizing store with
  | nil => simp at h
  | cons e rest ih =>
    obtain ⟨n', dn, ds, ps, sys⟩ := e
    obtain ⟨t, ht⟩ := h
    rcases List.mem_cons.mp ht with heq | htail
    · injection heq with h1 h2
      subst h1
      simp only [seedRolesLoop]
      split
      · rename_i hex
        obtain ⟨r, hr, hrn⟩ := List.any_eq_true.mp hex
        exact ⟨r, seedRolesLoop_mono hr, of_decide_eq_true hrn⟩
      · exact ⟨Role.mk n dn sys false
          (ps.filter (fun m => pstore.any (fun p => p.name = m))) none,
          seedRolesLoop_mono (List.mem_append_right _ (List.mem_singleton.mpr rfl)), rfl⟩
    · simp only [seedRolesLoop]
      split
      · exact ih ⟨t, htail⟩
      · exact ih ⟨t, htail⟩

/-- A role seeding run over a store that already has every entry name
skips everything: no new rows, `created = 0`. -/
theorem seedRolesLoop_skips_existing {es : List (String × String × String × List String × Bool)}
    {pstore : List Permission} {store : List Role}
    (h : ∀ e ∈ es, ∃ r ∈ store, r.name = e.1) :
    seedRolesLoop es pstore store = (store, 0, es.length) := by
  induction es with
  | nil => simp [seedRolesLoop]
  | cons e rest ih =>
    obtain ⟨n, dn, ds, ps, sys⟩ := e
    have hex : store.any (fun r => r.name = n) = true := by
      obtain ⟨r, hr, hrn⟩ := h (n, dn, ds, ps, sys) (List.mem_cons_self _ _)
      exact List.any_eq_true.mpr ⟨r, hr, decide_eq_true hrn⟩
    simp only [seedRolesLoop, hex, if_true,
      ih (fun e he => h e (List.mem_cons_of_mem _ he)), List.length_cons]

/-- The created/skipped counters of a role seeding run partition the
seeded list. -/
theorem seedRolesLoop_counts (es : List (String × String × String × List String × Bool))
    (pstore : List Permission) (store : List Role) :
    (seedRolesLoop es pstore store).2.1 + (seedRolesLoop es pstore store).2.2 = es.length := by
  induction es generalizing store with
  | nil => simp [seedRolesLoop]
  | cons e rest ih =>
    obtain ⟨n, dn, ds, ps, sys⟩ := e
    simp only [seedRolesLoop]
    split
    · have := ih store
      simp only [List.length_cons]
      omega
    · have := ih (store ++ [Role.mk n dn sys false
        (ps.filter (fun m => pstore.any (fun p => p.name = m))) none])
      simp only [List.length_cons]
      omega

/-- C8: registry seeding is idempotent — existing rows (matched by unique
name) are skipped, the per-entity created/skipped counts partition the
registry, and a second `seed_all` on an already-seeded store changes
nothing and returns `created = 0` for both permissions and roles. -/
theorem seeding_idempotent :
    ∀ (pstore : List Permission) (rstore : List Role),
      (seed_all (seed_all pstore rstore).perm_store (seed_all pstore rstore).role_store).perm_store
          = (seed_all pstore rstore).perm_store ∧
      (seed_all (seed_all pstore rstore).perm_store (seed_all pstore rstore).role_store).role_store
          = (seed_all pstore rstore).role_store ∧
      (seed_all (seed_all pstore rstore).perm_store (seed_all pstore rstore).role_store).perm_created
          = 0 ∧
      (seed_all (seed_all pstore rstore).perm_store (seed_all pstore rstore).role_store).role_created
          = 0 ∧
      (seed_all (seed_all pstore rstore).perm_store (seed_all pstore rstore).role_store).perm_skipped
          = PermissionRegistry.PERMISSIONS.length ∧
      (seed_all (seed_all pstore rstore).perm_store (seed_all pstore rstore).role_store).role_skipped
          = PermissionRegistry.DEFAULT_ROLES.length ∧
      (seed_all pstore rstore).perm_created + (seed_all pstore rstore).perm_skipped
          = PermissionRegistry.PERMISSIONS.length ∧
      (seed_all pstore rstore).role_created + (seed_all pstore rstore).role_skipped
          = PermissionRegistry.DEFAULT_ROLES.length := by
  intro pstore rstore
  have hpcov : ∀ e ∈ PermissionRegistry.PERMISSIONS,
      ∃ p ∈ (seed_permissions pstore).1, p.name = e.1 := by
    intro e he
    exact seedPermissionsLoop_covers ⟨e.2, by simpa using he⟩
  have hrcov : ∀ e ∈ PermissionRegistry.DEFAULT_ROLES,
      ∃ r ∈ (seed_roles (seed_permissions pstore).1 rstore).1, r.name = e.1 := by
    intro e he
    exact seedRolesLoop_covers ⟨e.2, by simpa using he⟩
  have hp2 : seed_permissions (seed_permissions pstore).1 =
      ((seed_permissions pstore).1, 0, PermissionRegistry.PERMISSIONS.length) :=
    seedPermissionsLoop_skips_existing hpcov
  have hr2 : seed_roles (seed_permissions pstore).1
        (seed_roles (seed_permissions pstore).1 rstore).1 =
      ((seed_roles (seed_permissions pstore).1 rstore).1, 0,
        PermissionRegistry.DEFAULT_ROLES.length) :=
    seedRolesLoop_skips_existing hrcov
  refine ⟨?_, ?_, ?_, ?_, ?_, ?_, ?_, ?_⟩
  · simp [seed_all, hp2, hr2]
  · simp [seed_all, hp2, hr2]
  · simp [seed_all, hp2, hr2]
  · simp [seed_all, hp2, hr2]
  · simp [seed_all, hp2, hr2]
  · simp [seed_all, hp2, hr2]
  · exact seedPermissionsLoop_counts _ _
  · exact seedRolesLoop_counts _ _ _

/-- No authentication-state operation ever removes a `jti` from the
blacklist. -/
theorem authOp_blacklist_mono (op : AuthOp) (st : AuthState) :
    st.token_blacklist ⊆ (op.apply st).token_blacklist := by
  cases op with
  | logoutOp j =>
    exact Finset.subset_insert _ _
  | loginOp u now =>
    exact fun x hx => hx
  | refreshOp user now =>
    cases user with
    | none => exact fun x hx => hx
    | some u => exact fun x hx => hx

/-- The blacklist only grows over any sequence of operations. -/
theorem applyAuthOps_blacklist_mono (ops : List AuthOp) (st : AuthState) :
    st.token_blacklist ⊆ (applyAuthOps ops st).token_blacklist := by
  induction ops generalizing st with
  | nil => exact fun x hx => hx
  | cons op rest ih =>
    exact (authOp_blacklist_mono op st).trans (ih (op.apply st))

/-- C3: once `revoke(jti)` has run, every later validation of a token
carrying that `jti` in the same process fails — as `RevokedToken` when the
token is otherwise acceptable — and never succeeds, no matter which
further operations run, because nothing ever removes a `jti` from the
revocation set; a different `jti` is unaffected by the revocation. -/
theorem revoked_jti_is_terminal :
    ∀ (st : AuthState) (jti : String) (ops : List AuthOp) (t : Token) (now : Nat),
      t.jti = jti →
      (check_if_token_revoked (applyAuthOps ops (revoke_token jti st)) jti = true ∧
       (∀ i, validateToken now (applyAuthOps ops (revoke_token jti st)) t ≠ .valid i) ∧
       (t.sig_ok = true → now < t.exp →
         validateToken now (applyAuthOps ops (revoke_token jti st)) t = .revokedToken) ∧
       (∀ jti', jti' ≠ jti →
         check_if_token_revoked (revoke_token jti st) jti' =
           check_if_token_revoked st jti')) := by
  intro st jti ops t now htj
  have hmem : jti ∈ (applyAuthOps ops (revoke_token jti st)).token_blacklist :=
    applyAuthOps_blacklist_mono ops (revoke_token jti st)
      (Finset.mem_insert_self jti st.token_blacklist)
  have hcheck : check_if_token_revoked (applyAuthOps ops (revoke_token jti st)) t.jti = true := by
    rw [htj]
    simpa [check_if_token_revoked] using hmem
  refine ⟨by simpa [check_if_token_revoked] using hmem, ?_, ?_, ?_⟩
  · intro i
    unfold validateToken
    by_cases hs : t.sig_ok = false
    · simp [hs]
    · by_cases he : t.exp ≤ now
      · simp [hs, he]
      · simp [hs, he, hcheck]
  · intro hs he
    unfold validateToken
    simp [hs, Nat.not_le.mpr he, hcheck]
  · intro jti' hne
    simp [check_if_token_revoked, revoke_token, Finset.mem_insert, hne]

/-- Witness for C3: after revoking `jti` `"j1"` on a fresh state, a
well-signed unexpired token with that `jti` validates to `RevokedToken`
even after an unrelated login ran in between. -/
theorem revoked_jti_is_terminal_witness :
    validateToken 0
      (applyAuthOps [AuthOp.loginOp (User.mk 2 true [] []) 0]
        (revoke_token "j1" (AuthState.mk ∅ 0)))
      (Token.mk "j1" 1 100 TokenType.access true) = .revokedToken :=
  (revoked_jti_is_terminal (AuthState.mk ∅ 0) "j1"
    [AuthOp.loginOp (User.mk 2 true [] []) 0]
    (Token.mk "j1" 1 100 TokenType.access true) 0 rfl).2.2.1 rfl (by decide)

/-- C9: a successful refresh just calls `create_tokens` again and leaves
the revocation set unchanged — the old refresh token's `jti` is not
revoked, so every token that validated before the refresh (the old
refresh token included) still validates after it, at any instant. -/
theorem refresh_does_not_revoke :
    ∀ (u : User) (now : Nat) (st : AuthState) (pair : Token × Token) (st' : AuthState),
      refresh_tokens (some u) now st = .ok (pair, st') →
      (refresh_tokens (some u) now st = .ok (create_tokens u now st) ∧
       st'.token_blacklist = st.token_blacklist ∧
       (∀ j, j ∈ st'.token_blacklist ↔ j ∈ st.token_blacklist) ∧
       (∀ (t : Token) (now₂ i : Nat),
         validateToken now₂ st t = .valid i → validateToken now₂ st' t = .valid i)) := by
  intro u now st pair st' h
  have h' : create_tokens u now st = (pair, st') := by
    simpa [refresh_tokens] using h
  have hbl : st'.token_blacklist = st.token_blacklist := by
    have h2 := congrArg (fun x => x.2.token_blacklist) h'
    simpa [create_tokens] using h2.symm
  have hval : ∀ (now₂ : Nat) (t : Token),
      validateToken now₂ st' t = validateToken now₂ st t := by
    intro now₂ t
    simp [validateToken, check_if_token_revoked, hbl]
  refine ⟨rfl, hbl, fun j => by rw [hbl], ?_⟩
  intro t now₂ i hv
  rw [hval]
  exact hv

/-- Witness for C9: refreshing on a fresh state yields the same pair as
`create_tokens` and the (empty) blacklist is preserved. -/
theorem refresh_does_not_revoke_witness :
    (AuthState.mk ∅ 2).token_blacklist = (AuthState.mk ∅ 0).token_blacklist :=
  (refresh_does_not_revoke (User.mk 5 true [] []) 0 (AuthState.mk ∅ 0)
    (Token.mk (freshJti 0) 5 (0 + JWT_ACCESS_TOKEN_EXPIRES) TokenType.access true,
     Token.mk (freshJti 1) 5 (0 + JWT_REFRESH_TOKEN_EXPIRES) TokenType.refresh true)
    (AuthState.mk ∅ 2) rfl).2.1

/-- C10: with a non-`None` user, an empty requirement list grants access
in all-mode and denies it in any-mode, for both permissions and roles,
and hence in the decorator's access decision. -/
theorem empty_requirement_asymmetry :
    ∀ (u : User),
      user_has_all_permissions (some u) [] = true ∧
      user_has_any_permission (some u) [] = false ∧
      u.has_all_roles [] = true ∧
      u.has_any_role [] = false ∧
      permission_required_decision (some u) [] true = true ∧
      permission_required_decision (some u) [] false = false := by
  intro u
  refine ⟨rfl, rfl, rfl, ?_, rfl, rfl⟩
  simp [User.has_any_role]

end FlaskRBAC
